import Mathlib

/-!
Verification of the weathercal forecast-aggregation and caching core.

This file gives a shallow embedding of the Python modules `nws.py`,
`cache.py`, `soloize.py` and `formatting.py`:

* `Period` models one entry of `properties.periods` of the upstream
  forecast JSON, restricted to the fields the verified components read
  (`dewpoint` is only read by `is_cool`, which no theorem below needs,
  so it is elided).  The nested `probabilityOfPrecipitation["value"]`
  field is flattened into an `Option Int`, with `none` standing for a
  JSON `null`.
* Python exceptions are modelled by `Except PyError`: a comparison or
  `max` between `None` and an `int` is a `TypeError`, `int()` on a
  non-numeric string is a `ValueError`, and indexing `[0]` into an
  empty list is an `IndexError`.
* Python string operations used by the code (`split(...)[0]`, slicing
  `[:n]`, `int(...)`) are modelled by structurally recursive functions
  over `List Char` so that concrete runs reduce inside the kernel.
-/

/-- Python error values that the embedded code can raise. -/
inductive PyError where
  | typeError
  | valueError
  | indexError
deriving DecidableEq, Repr

/-- One hourly forecast record (`properties.periods[i]` of the NWS JSON). -/
structure Period where
  startTime : String
  endTime : String
  isDaytime : Bool
  temperature : Int
  /-- `probabilityOfPrecipitation["value"]`; `none` models JSON `null`. -/
  probabilityOfPrecipitation : Option Int
  shortForecast : String
  windSpeed : String
deriving DecidableEq, Repr

/-- A calendar event as built by the calendar builders (the fields of
`ics.Event` that `nws.py` assigns; `end` is called `endTime` because
`end` is reserved). -/
structure Event where
  uid : String
  name : String
  begin : String
  endTime : String
  description : String
deriving DecidableEq, Repr

/-- `MIN_CHANCE_RAIN = 33` (nws.py line 20). -/
def MIN_CHANCE_RAIN : Int := 33

/-- `MIN_WARM_TEMP = 68` (nws.py line 21). -/
def MIN_WARM_TEMP : Int := 68

/-- Characters of `s.split(sep)[0]` for a one-character separator:
everything up to the first occurrence of `sep`. -/
def takeUntilChar (sep : Char) : List Char → List Char
  | [] => []
  | c :: cs => if c = sep then [] else c :: takeUntilChar sep cs

/-- Digit accumulator for `pyInt`: consumes decimal digits, failing on
any non-digit character. -/
def digitsValAux : List Char → Nat → Option Nat
  | [], acc => some acc
  | c :: cs, acc =>
    if c.isDigit then digitsValAux cs (acc * 10 + (c.toNat - 48)) else none

/-- Python `int(s)` on the character list of `s`: an optional sign
followed by a non-empty run of decimal digits; anything else raises
`ValueError` (modelled as `none`).  (Python also strips surrounding
whitespace and allows `_` separators; the strings reaching this model
are components of a `split(" ")` and contain neither.) -/
def pyInt : List Char → Option Int
  | [] => none
  | '-' :: rest =>
    match rest with
    | [] => none
    | _ => (digitsValAux rest 0).map (fun n => -(n : Int))
  | '+' :: rest =>
    match rest with
    | [] => none
    | _ => (digitsValAux rest 0).map (fun n => (n : Int))
  | cs => (digitsValAux cs 0).map (fun n => (n : Int))

/-- Python `s[:n]` (slicing by characters). -/
def pyTake (n : Nat) (s : String) : String :=
  String.mk (s.data.take n)

/-- `is_rainy` (nws.py lines 79-91):
`period["probabilityOfPrecipitation"]["value"] > MIN_CHANCE_RAIN`.
When the value is `null`, Python raises
`TypeError: unsupported operand ... NoneType and int`. -/
def is_rainy (period : Period) : Except PyError Bool :=
  match period.probabilityOfPrecipitation with
  | none => Except.error PyError.typeError
  | some v => Except.ok (decide (v > MIN_CHANCE_RAIN))

/-- `is_warm` (nws.py lines 107-108): `temperature >= MIN_WARM_TEMP`. -/
def is_warm (period : Period) : Bool :=
  decide (period.temperature ≥ MIN_WARM_TEMP)

/-- `forecast_desirability` (nws.py lines 293-309).  Evaluation order
follows the Python body: `max(pop, 33)` first (a `null` value raises
`TypeError` there), then `abs(70 - temperature)` (total on ints), then
`int(windSpeed.split(" ")[0])` (a non-numeric leading token raises
`ValueError`). -/
def forecast_desirability (period : Period) : Except PyError (Int × Int × Int) :=
  match period.probabilityOfPrecipitation with
  | none => Except.error PyError.typeError
  | some v =>
    match pyInt (takeUntilChar ' ' period.windSpeed.data) with
    | none => Except.error PyError.valueError
    | some w => Except.ok (max v MIN_CHANCE_RAIN, |70 - period.temperature|, w)

/-- Loop of `weather_blocks` (nws.py lines 224-246).  The first list
argument is the remaining input, the second is `current_block`.
`rain_interest` is the loop-constant `interest_fn is is_rainy`. -/
def weatherBlocksAux (interest_fn : Period → Bool) (rain_interest : Bool) :
    List Period → List Period → List (List Period)
  | [], [] => []
  | [], c0 :: cs => [c0 :: cs]
  | p :: ps, [] =>
    if interest_fn p then
      weatherBlocksAux interest_fn rain_interest ps [p]
    else
      weatherBlocksAux interest_fn rain_interest ps []
  | p :: ps, c0 :: cs =>
    if interest_fn p then
      if rain_interest = false ∨ c0.shortForecast = p.shortForecast then
        weatherBlocksAux interest_fn rain_interest ps (c0 :: cs ++ [p])
      else
        (c0 :: cs) :: weatherBlocksAux interest_fn rain_interest ps [p]
    else
      (c0 :: cs) :: weatherBlocksAux interest_fn rain_interest ps []

/-- `weather_blocks` (nws.py lines 212-246), with the generator's
yields collected into a list.  `rain_interest` models the identity
test `interest_fn is is_rainy` that the loop performs. -/
def weather_blocks (periods : List Period) (interest_fn : Period → Bool)
    (rain_interest : Bool) : List (List Period) :=
  weatherBlocksAux interest_fn rain_interest periods []

/-- `start_time.split("T")[0]` of a period (the calendar-date portion). -/
def startDate (period : Period) : String :=
  String.mk (takeUntilChar 'T' period.startTime.data)

/-- Loop of `days` (nws.py lines 276-290).  Arguments: remaining input,
`current_day`, `current_date` (`none` models Python's initial `None`).
The trailing `yield current_day` is unconditional in the source, so the
base case always emits the final group, even when it is empty. -/
def daysAux : List Period → List Period → Option String → List (List Period)
  | [], cur, _ => [cur]
  | p :: ps, cur, cd =>
    if p.isDaytime = false then
      daysAux ps cur cd
    else
      if cd ≠ some (startDate p) then
        (if cur = [] then [] else [cur]) ++ daysAux ps [p] (some (startDate p))
      else
        daysAux ps (cur ++ [p]) cd

/-- `days` (nws.py lines 249-290), with the generator's yields
collected into a list. -/
def days (periods : List Period) : List (List Period) :=
  daysAux periods [] none

/-- A desirability sort key: the tuple
`(prob_precip, temp_discomfort, wind_speed)`. -/
abbrev Key := Int × Int × Int

/-- Python's `<` on 3-tuples of ints: strict lexicographic order.
`sorted` compares decorated keys with exactly this relation. -/
def keyLt (a b : Key) : Bool :=
  decide (a.1 < b.1) ||
    (decide (a.1 = b.1) &&
      (decide (a.2.1 < b.2.1) ||
        (decide (a.2.1 = b.2.1) && decide (a.2.2 < b.2.2))))

/-- Insert one decorated element into an already sorted run, after all
elements that are not strictly greater — the placement a stable sort
(like CPython's) gives an element that originally came first. -/
def insertPair (x : Period × Key) : List (Period × Key) → List (Period × Key)
  | [] => [x]
  | y :: ys =>
    if keyLt y.2 x.2 then y :: insertPair x ys else x :: y :: ys

/-- Stable sort of decorated `(element, key)` pairs by `keyLt`.  Any
stable comparison sort (CPython's timsort included) produces this exact
output, so this models `sorted(day, key=...)` after key decoration. -/
def sortPairs : List (Period × Key) → List (Period × Key)
  | [] => []
  | x :: xs => insertPair x (sortPairs xs)

/-- Effectful map in input order, stopping at the first raised error —
the way CPython's `sorted(xs, key=f)` evaluates `f` on every element
left to right before comparing anything. -/
def mapE (g : α → Except PyError β) : List α → Except PyError (List β)
  | [] => Except.ok []
  | a :: as =>
    match g a with
    | Except.error e => Except.error e
    | Except.ok b =>
      match mapE g as with
      | Except.error e => Except.error e
      | Except.ok bs => Except.ok (b :: bs)

/-- Decorate a period with its `forecast_desirability` key. -/
def keyedPeriod (p : Period) : Except PyError (Period × Key) :=
  match forecast_desirability p with
  | Except.error e => Except.error e
  | Except.ok k => Except.ok (p, k)

/-- `sorted(day, key=forecast_desirability)` (nws.py line 195): compute
every key in order (propagating the first exception), stable-sort by
the key tuples, and forget the decoration. -/
def pySorted (day : List Period) : Except PyError (List Period) :=
  match mapE keyedPeriod day with
  | Except.error e => Except.error e
  | Except.ok pairs => Except.ok ((sortPairs pairs).map Prod.fst)

/-- `sorted(day, key=forecast_desirability)[0]` (nws.py line 195):
indexing an empty sorted list raises `IndexError`. -/
def best_period (day : List Period) : Except PyError Period :=
  match pySorted day with
  | Except.error e => Except.error e
  | Except.ok [] => Except.error PyError.indexError
  | Except.ok (b :: _) => Except.ok b

/-- `str(uuid.UUID(hex32))`: the canonical 8-4-4-4-12 dashed form of a
32-hex-digit string. -/
def formatUuid (cs : List Char) : String :=
  String.mk (cs.take 8 ++ '-' :: ((cs.drop 8).take 4 ++ '-' ::
    (((cs.drop 12).take 4) ++ '-' :: (((cs.drop 16).take 4) ++ '-' ::
      (cs.drop 20).take 12))))

/-- `create_uid` (formatting.py lines 64-75):
`str(uuid.UUID(hashlib.sha1(s.encode()).hexdigest()[:32]))`.  The SHA-1
hex digest is an external `hashlib` primitive and is threaded in as the
function argument `sha1hex`; every theorem below holds for an arbitrary
digest function. -/
def create_uid (sha1hex : String → String) (string_to_hash : String) : String :=
  formatUuid ((sha1hex string_to_hash).data.take 32)

/-- Python `str(x)` of the precipitation value as it appears inside the
event description f-string: `None` for `null`, the decimal digits
otherwise. -/
def pyStrPop : Option Int → String
  | none => "None"
  | some v => toString v

/-- The event built for one day's chosen period
(nws.py lines 196-207).  `forecast_updated` is the preformatted
timestamp string the builder interpolates (computed by
`get_forecast_timestamp` from the upstream `updateTime` via the
external `datetime`/`pytz` libraries). -/
def mkBestEvent (sha1hex : String → String) (forecast_updated : String)
    (best : Period) : Event :=
  { uid := create_uid sha1hex (pyTake 10 best.startTime)
    name := best.shortForecast
    begin := best.startTime
    endTime := best.endTime
    description :=
      toString best.temperature ++ "F, " ++
        pyStrPop best.probabilityOfPrecipitation ++
        "% chance of rain\nForecast updated " ++ forecast_updated }

/-- `build_best_weather_calendar` (nws.py lines 181-209), restricted to
its event-producing core: for each group yielded by `days`, sort by
`forecast_desirability`, take element `[0]` (raising `IndexError` on an
empty group), and build the event.  Events are returned in day order;
`ics.Calendar.events` is a set, but no claim depends on set semantics. -/
def build_best_weather_calendar (sha1hex : String → String)
    (forecast_updated : String) (periods : List Period) :
    Except PyError (List Event) :=
  mapE (fun day =>
    match best_period day with
    | Except.error e => Except.error e
    | Except.ok best => Except.ok (mkBestEvent sha1hex forecast_updated best))
    (days periods)

/-- An HTTP response as `cache.py` caches it (`requests.Response`
restricted to what the claims observe). -/
structure Response where
  status : Nat
  content : String
deriving DecidableEq, Repr

/-- A non-200 upstream status, raised by `response.raise_for_status()`. -/
inductive HttpError where
  | httpStatus (code : Nat)
deriving DecidableEq, Repr

/-- State of one `cachetools.TTLCache` pool: entries `(url, response,
expires)` in insertion order, where `expires = insert_time + ttl`. -/
abbrev CacheState := List (String × Response × Nat)

/-- `FORECAST_CACHE = cachetools.TTLCache(maxsize=10, ttl=3600)`
(cache.py line 18): the TTL of the forecast pool. -/
def FORECAST_TTL : Nat := 3600

/-- The `maxsize=10` bound of the forecast pool (cache.py line 18). -/
def FORECAST_MAXSIZE : Nat := 10

/-- First entry stored under `url`, with its expiry time. -/
def cacheFind : CacheState → String → Option (Response × Nat)
  | [], _ => none
  | (u, r, e) :: rest, url =>
    if u = url then some (r, e) else cacheFind rest url

/-- `TTLCache.expire`: drop every entry whose `expires` has been
reached (`cachetools` treats an entry as expired when
`not (expires > now)`). -/
def cacheExpire (now : Nat) : CacheState → CacheState
  | [] => []
  | (u, r, e) :: rest =>
    if now < e then (u, r, e) :: cacheExpire now rest else cacheExpire now rest

/-- Overwrite the entry stored under `url` with a fresh response and
expiry (`TTLCache.__setitem__` on a present key). -/
def cacheReplace : CacheState → String → Response → Nat → CacheState
  | [], _, _, _ => []
  | (u, r0, e0) :: rest, url, r, e =>
    if u = url then (u, r, e) :: rest
    else (u, r0, e0) :: cacheReplace rest url r e

/-- `TTLCache.popitem` eviction on capacity overflow: drop oldest
entries until there is room for one more. -/
def cacheEvict (st : CacheState) : CacheState :=
  if FORECAST_MAXSIZE ≤ List.length st then
    st.drop (List.length st - (FORECAST_MAXSIZE - 1))
  else st

/-- Store a freshly fetched response (`cache[key] = value` performed by
the `@cachetools.cached` wrapper): expire dead entries, then overwrite
in place or append (evicting on overflow), with
`expires = now + FORECAST_TTL`. -/
def cacheInsert (st : CacheState) (now : Nat) (url : String) (r : Response) :
    CacheState :=
  match cacheFind (cacheExpire now st) url with
  | some _ => cacheReplace (cacheExpire now st) url r (now + FORECAST_TTL)
  | none => cacheEvict (cacheExpire now st) ++ [(url, r, now + FORECAST_TTL)]

/-- `TTLCache.__getitem__` through the `@cached` wrapper: a stored
response is returned only while `now < expires`. -/
def cacheLookup (st : CacheState) (now : Nat) (url : String) : Option Response :=
  match cacheFind st url with
  | some (r, e) => if now < e then some r else none
  | none => none

deriving instance DecidableEq for Except

/-- Result of one `fetch_url` call: the returned value or raised error,
whether a network request was issued, and the cache state afterwards. -/
structure FetchOutcome where
  result : Except HttpError Response
  network : Bool
  state : CacheState
deriving DecidableEq

/-- `fetch_url` (cache.py lines 31-58) through its
`@cachetools.cached(cache=FORECAST_CACHE)` wrapper: serve a live cached
entry without touching the network; otherwise perform the GET
(modelled by `net url now`), raise on a non-200 status without caching,
and cache and return a 200 response. -/
def fetch_url (net : String → Nat → Response) (st : CacheState) (now : Nat)
    (url : String) : FetchOutcome :=
  match cacheLookup st now url with
  | some r => { result := Except.ok r, network := false, state := st }
  | none =>
    let r := net url now
    if r.status = 200 then
      { result := Except.ok r, network := true, state := cacheInsert st now url r }
    else
      { result := Except.error (HttpError.httpStatus r.status), network := true
        state := st }

/-- The class of the Python exception raised by
`fetch_and_process_calendar` for one URL, as the two refresh loops'
`except` clauses distinguish them: `requests.RequestException` (network
failure), `ValueError` (raised by `validate_url`), `KeyError`, or any
other `Exception` subclass — soloize.py lines 62-75 document that an
ICS parse failure raises a plain `Exception`, which falls in this last
class. -/
inductive PyExc where
  | requestException
  | valueError
  | keyError
  | otherException
deriving DecidableEq, Repr

/-- Whether the clause at soloize.py line 171,
`except (requests.RequestException, ValueError, KeyError)`, catches an
exception of the given class.  It does not catch the plain-`Exception`
class of an ICS parse failure.  (The duplicate loop in cache.py line
118 instead writes `except Exception`, which catches every class.) -/
def caught_by_soloize (e : PyExc) : Bool :=
  match e with
  | PyExc.requestException => true
  | PyExc.valueError => true
  | PyExc.keyError => true
  | PyExc.otherException => false

/-- `SOLOIZE_CACHE.get(url)` — Python dict lookup, insertion order. -/
def lookupSoloize : List (String × String) → String → Option String
  | [], _ => none
  | (u, c) :: rest, url =>
    if u = url then some c else lookupSoloize rest url

/-- `set_soloize_cache` (soloize.py lines 127-137): dict assignment
`SOLOIZE_CACHE[url] = content` — overwrite in place if present, append
otherwise. -/
def set_soloize_cache : List (String × String) → String → String →
    List (String × String)
  | [], url, content => [(url, content)]
  | (u, c) :: rest, url, content =>
    if u = url then (u, content) :: rest
    else (u, c) :: set_soloize_cache rest url content

/-- One iteration of the `for url in tracked` body of cache.py's
refresh loop (cache.py lines 112-119), whose `except Exception` clause
catches a failure of every class: on success overwrite the cache
entry, on any exception log and leave the cache untouched. -/
def refresh_step_cache (process : String → Except PyExc String)
    (cache : List (String × String)) (url : String) : List (String × String) :=
  match process url with
  | Except.ok result => set_soloize_cache cache url result
  | Except.error _ => cache

/-- One full cycle of cache.py's `refresh_soloize_cache_background`
(cache.py lines 99-119) over a snapshot of the tracked URLs.  With
`except Exception` around each URL the cycle is a total function:
every URL is visited and no error escapes to terminate the loop. -/
def refresh_cycle_cache (process : String → Except PyExc String) :
    List (String × String) → List String → List (String × String)
  | cache, [] => cache
  | cache, url :: rest =>
    refresh_cycle_cache process (refresh_step_cache process cache url) rest

/-- One cycle of soloize.py's `refresh_soloize_cache_background`
(soloize.py lines 151-172), whose `except` clause catches only
`(requests.RequestException, ValueError, KeyError)`: an exception of
any other class propagates out of the `for` loop, so the remaining
URLs of the cycle are skipped and the loop (and its daemon thread)
terminates.  Returns the cache as updated so far, paired with the
escaped exception when one was raised. -/
def refresh_cycle_soloize (process : String → Except PyExc String) :
    List (String × String) → List String → List (String × String) × Option PyExc
  | cache, [] => (cache, none)
  | cache, url :: rest =>
    match process url with
    | Except.ok result =>
      refresh_cycle_soloize process (set_soloize_cache cache url result) rest
    | Except.error e =>
      if caught_by_soloize e then refresh_cycle_soloize process cache rest
      else (cache, some e)

/-- Whether running the pipeline on `u` has an outcome that soloize.py's
loop survives: success, or an exception of a class its `except` tuple
catches. -/
def soloize_outcome_caught (process : String → Except PyExc String)
    (u : String) : Bool :=
  match process u with
  | Except.ok _ => true
  | Except.error e => caught_by_soloize e

lemma daysAux_flatten (ps : List Period) :
    ∀ cur cd, (daysAux ps cur cd).flatten = cur ++ ps.filter (fun p => p.isDaytime) := by
  induction ps with
  | nil => intro cur cd; simp [daysAux]
  | cons p ps ih =>
    intro cur cd
    by_cases hd : p.isDaytime
    · by_cases hcd : cd ≠ some (startDate p)
      · by_cases hcur : cur = [] <;>
          simp [daysAux, hd, hcd, hcur, ih, List.filter_cons]
      · simp [daysAux, hd, hcd, ih, List.filter_cons]
    · simp [daysAux, hd, ih, List.filter_cons]

lemma daysAux_groups_ne_nil (ps : List Period) :
    ∀ cur cd, cur ≠ [] → ∀ g ∈ daysAux ps cur cd, g ≠ [] := by
  induction ps with
  | nil => intro cur cd hcur g hg; simp [daysAux] at hg; simpa [hg]
  | cons p ps ih =>
    intro cur cd hcur g hg
    by_cases hd : p.isDaytime
    · by_cases hcd : cd ≠ some (startDate p)
      · simp [daysAux, hd, hcd, hcur] at hg
        rcases hg with hg | hg
        · simpa [hg]
        · exact ih [p] (some (startDate p)) (by simp) g hg
      · simp [daysAux, hd, hcd] at hg
        exact ih (cur ++ [p]) cd (by simp) g hg
    · simp [daysAux, hd] at hg
      exact ih cur cd hcur g hg

lemma daysAux_no_daytime (ps : List Period) (hps : ∀ p ∈ ps, p.isDaytime = false) :
    ∀ cur cd, daysAux ps cur cd = [cur] := by
  induction ps with
  | nil => intro cur cd; simp [daysAux]
  | cons p ps ih =>
    intro cur cd
    have hp : p.isDaytime = false := hps p (by simp)
    simp [daysAux, hp]
    exact ih (fun q hq => hps q (by simp [hq])) cur cd

lemma daysAux_has_daytime (ps : List Period) :
    ∀ cur cd, (∃ p ∈ ps, p.isDaytime = true) → ∀ g ∈ daysAux ps cur cd, g ≠ [] := by
  induction ps with
  | nil => intro cur cd h; simp at h
  | cons p ps ih =>
    intro cur cd hex g hg
    by_cases hd : p.isDaytime
    · by_cases hcd : cd ≠ some (startDate p)
      · by_cases hcur : cur = []
        · simp [daysAux, hd, hcd, hcur] at hg
          exact daysAux_groups_ne_nil ps [p] (some (startDate p)) (by simp) g hg
        · simp [daysAux, hd, hcd, hcur] at hg
          rcases hg with hg | hg
          · simpa [hg]
          · exact daysAux_groups_ne_nil ps [p] (some (startDate p)) (by simp) g hg
      · simp [daysAux, hd, hcd] at hg
        exact daysAux_groups_ne_nil ps (cur ++ [p]) cd (by simp) g hg
    · simp [daysAux, hd] at hg
      have hex' : ∃ q ∈ ps, q.isDaytime = true := by
        rcases hex with ⟨q, hq, hqd⟩
        rcases List.mem_cons.mp hq with rfl | hq'
        · exact absurd hqd (by simpa using hd)
        · exact ⟨q, hq', hqd⟩
      exact ih cur cd hex' g hg

/-- C10: over any input sequence, the groups emitted by `days`
concatenate, in order, to exactly the daytime periods of the input in
their original relative order — so every `isDaytime` period lands in
exactly one group, every non-daytime period in none, and every period
of every group is a daytime period. -/
theorem days_flatten_filter (periods : List Period) :
    (days periods).flatten = periods.filter (fun p => p.isDaytime) ∧
    ∀ g ∈ days periods, ∀ p ∈ g, p.isDaytime = true := by
  have hj := daysAux_flatten periods [] none
  refine ⟨by simpa [days] using hj, ?_⟩
  intro g hg p hp
  have : p ∈ (days periods).flatten := List.mem_flatten.mpr ⟨g, hg, hp⟩
  rw [days, hj] at this
  simpa using (List.mem_filter.mp (by simpa using this)).2

/-- C2 counterexample: on the empty input (which contains zero daytime
periods) `days` does emit a group — the empty one — because the
trailing `yield current_day` is unconditional; the claim says no group
at all is emitted. -/
theorem days_emits_empty_group : ([] : List Period) ∈ days [] := by decide

/-- C2 amended: an empty group can be emitted by `days`, but only as
the sole trailing group when the input contains no daytime period at
all; whenever the input has at least one daytime period, every emitted
group is non-empty. -/
theorem days_empty_group_only_without_daytime (periods : List Period)
    (g : List Period) (hg : g ∈ days periods) (hge : g = []) :
    days periods = [[]] ∧ periods.filter (fun p => p.isDaytime) = [] := by
  by_cases hex : ∃ p ∈ periods, p.isDaytime = true
  · exact absurd hge (daysAux_has_daytime periods [] none hex g hg)
  · push_neg at hex
    have hall : ∀ p ∈ periods, p.isDaytime = false := by
      intro p hp
      simpa using hex p hp
    constructor
    · simpa [days] using daysAux_no_daytime periods hall [] none
    · exact List.filter_eq_nil_iff.mpr (by intro p hp; simp [hall p hp])

theorem days_empty_group_witness :
    (([] : List Period) ∈ days []) ∧
    (days ([] : List Period) = [[]] ∧
      ([] : List Period).filter (fun p => p.isDaytime) = []) :=
  ⟨by decide, days_empty_group_only_without_daytime [] [] (by decide) rfl⟩

lemma weatherBlocksAux_flatten (f : Period → Bool) (ri : Bool) (ps : List Period) :
    ∀ cur, (weatherBlocksAux f ri ps cur).flatten = cur ++ ps.filter f := by
  induction ps with
  | nil => intro cur; cases cur <;> simp [weatherBlocksAux]
  | cons p ps ih =>
    intro cur
    by_cases hp : f p
    · cases cur with
      | nil => simp [weatherBlocksAux, hp, ih, List.filter_cons]
      | cons c0 cs =>
        by_cases hm : ri = false ∨ c0.shortForecast = p.shortForecast <;>
          simp [weatherBlocksAux, hp, hm, ih, List.filter_cons]
    · cases cur with
      | nil => simp [weatherBlocksAux, hp, ih, List.filter_cons]
      | cons c0 cs => simp [weatherBlocksAux, hp, ih, List.filter_cons]

lemma weatherBlocksAux_ne_nil (f : Period → Bool) (ri : Bool) (ps : List Period) :
    ∀ cur, ∀ b ∈ weatherBlocksAux f ri ps cur, b ≠ [] := by
  induction ps with
  | nil =>
    intro cur b hb
    cases cur <;> simp [weatherBlocksAux] at hb
    simp [hb]
  | cons p ps ih =>
    intro cur b hb
    by_cases hp : f p
    · cases cur with
      | nil =>
        simp [weatherBlocksAux, hp] at hb
        exact ih [p] b hb
      | cons c0 cs =>
        by_cases hm : ri = false ∨ c0.shortForecast = p.shortForecast
        · simp [weatherBlocksAux, hp, hm] at hb
          exact ih (c0 :: cs ++ [p]) b hb
        · simp [weatherBlocksAux, hp, hm] at hb
          rcases hb with hb | hb
          · simp [hb]
          · exact ih [p] b hb
    · cases cur with
      | nil =>
        simp [weatherBlocksAux, hp] at hb
        exact ih [] b hb
      | cons c0 cs =>
        simp [weatherBlocksAux, hp] at hb
        rcases hb with hb | hb
        · simp [hb]
        · exact ih [] b hb

/-- C1: for every non-empty period sequence and every interest
predicate (under either value of the rain-identity flag), the blocks
emitted by `weather_blocks` concatenate, in order and without overlap,
to exactly the subsequence of interesting periods of the input
(`flatten = filter`), every block is non-empty, and no block contains a
period the predicate rejects. -/
theorem weather_blocks_partition (interest_fn : Period → Bool) (rain_interest : Bool)
    (periods : List Period) (_hne : periods ≠ []) :
    (weather_blocks periods interest_fn rain_interest).flatten =
      periods.filter interest_fn ∧
    (∀ b ∈ weather_blocks periods interest_fn rain_interest, b ≠ []) ∧
    (∀ b ∈ weather_blocks periods interest_fn rain_interest, ∀ p ∈ b,
      interest_fn p = true) := by
  have hj := weatherBlocksAux_flatten interest_fn rain_interest periods []
  refine ⟨by simpa [weather_blocks] using hj,
    fun b hb => weatherBlocksAux_ne_nil interest_fn rain_interest periods [] b hb,
    ?_⟩
  intro b hb p hp
  have hmem : p ∈ (weather_blocks periods interest_fn rain_interest).flatten :=
    List.mem_flatten.mpr ⟨b, hb, hp⟩
  rw [weather_blocks, hj] at hmem
  exact (List.mem_filter.mp (by simpa using hmem)).2

def pShowers : Period :=
  ⟨"2022-01-01T08:00:00", "2022-01-01T09:00:00", true, 70, some 70, "Showers", "5 mph"⟩

def pThunder : Period :=
  ⟨"2022-01-01T09:00:00", "2022-01-01T10:00:00", true, 70, some 80, "Thunderstorms", "5 mph"⟩

theorem weather_blocks_partition_witness :
    ([pShowers, pThunder] ≠ []) ∧
    ((weather_blocks [pShowers, pThunder] is_warm false).flatten =
      [pShowers, pThunder].filter is_warm ∧
    (∀ b ∈ weather_blocks [pShowers, pThunder] is_warm false, b ≠ []) ∧
    (∀ b ∈ weather_blocks [pShowers, pThunder] is_warm false, ∀ p ∈ b,
      is_warm p = true)) :=
  ⟨by decide, weather_blocks_partition is_warm false [pShowers, pThunder] (by decide)⟩

lemma weatherBlocksAux_rain_same (f : Period → Bool) (ps : List Period) :
    ∀ cur, (∀ x ∈ cur, ∀ y ∈ cur, x.shortForecast = y.shortForecast) →
      ∀ b ∈ weatherBlocksAux f true ps cur, ∀ x ∈ b, ∀ y ∈ b,
        x.shortForecast = y.shortForecast := by
  induction ps with
  | nil =>
    intro cur hcur b hb
    cases cur <;> simp [weatherBlocksAux] at hb
    simpa [hb] using hcur
  | cons p ps ih =>
    intro cur hcur b hb
    by_cases hp : f p
    · cases cur with
      | nil =>
        simp [weatherBlocksAux, hp] at hb
        exact ih [p] (by simp) b hb
      | cons c0 cs =>
        by_cases hps : c0.shortForecast = p.shortForecast
        · simp [weatherBlocksAux, hp, hps] at hb
          refine ih (c0 :: (cs ++ [p])) ?_ b hb
          intro x hx y hy
          have hsplit : ∀ z : Period, z ∈ c0 :: (cs ++ [p]) →
              z = p ∨ z ∈ c0 :: cs := by
            intro z hz
            rcases List.mem_cons.mp hz with rfl | hz1
            · right; simp
            · rcases List.mem_append.mp hz1 with h1 | h1
              · right; simp [h1]
              · left; simpa using h1
          have hc0 : c0 ∈ c0 :: cs := by simp
          rcases hsplit x hx with rfl | hx' <;> rcases hsplit y hy with rfl | hy'
          · rfl
          · rw [← hps, ← hcur c0 hc0 y hy']
          · rw [hcur x hx' c0 hc0, hps]
          · exact hcur x hx' y hy'
        · simp [weatherBlocksAux, hp, hps] at hb
          rcases hb with hb | hb
          · subst hb; exact hcur
          · exact ih [p] (by simp) b hb
    · cases cur with
      | nil =>
        simp [weatherBlocksAux, hp] at hb
        exact ih [] (by simp) b hb
      | cons c0 cs =>
        simp [weatherBlocksAux, hp] at hb
        rcases hb with hb | hb
        · subst hb; exact hcur
        · exact ih [] (by simp) b hb

lemma weatherBlocksAux_all_interesting (f : Period → Bool) (ps : List Period)
    (hall : ∀ p ∈ ps, f p = true) :
    ∀ cur, cur ≠ [] → weatherBlocksAux f false ps cur = [cur ++ ps] := by
  induction ps with
  | nil => intro cur hcur; cases cur <;> simp_all [weatherBlocksAux]
  | cons p ps ih =>
    intro cur hcur
    have hp : f p = true := hall p (by simp)
    cases cur with
    | nil => exact absurd rfl hcur
    | cons c0 cs =>
      have h2 : weatherBlocksAux f false ps (c0 :: (cs ++ [p])) =
          [(c0 :: (cs ++ [p])) ++ ps] :=
        ih (fun q hq => hall q (by simp [hq])) (c0 :: (cs ++ [p])) (by simp)
      simpa [weatherBlocksAux, hp] using h2

/-- C4: when `weather_blocks` is scanned with the rain predicate
(`rain_interest = true`), no emitted block contains two periods with
different `shortForecast` texts; with a non-rain predicate
(`rain_interest = false`), consecutive interesting periods merge into a
single block regardless of their forecast texts — in particular a fully
interesting input yields one block. -/
theorem weather_blocks_rain_same_forecast (interest_fn : Period → Bool)
    (periods : List Period) :
    (∀ b ∈ weather_blocks periods interest_fn true, ∀ p ∈ b, ∀ q ∈ b,
      p.shortForecast = q.shortForecast) ∧
    (periods ≠ [] → (∀ p ∈ periods, interest_fn p = true) →
      weather_blocks periods interest_fn false = [periods]) := by
  constructor
  · exact fun b hb =>
      weatherBlocksAux_rain_same interest_fn periods [] (by simp) b hb
  · intro hne hall
    cases periods with
    | nil => exact absurd rfl hne
    | cons p ps =>
      have hp : interest_fn p = true := hall p (by simp)
      have h2 := weatherBlocksAux_all_interesting interest_fn ps
        (fun q hq => hall q (by simp [hq])) [p] (by simp)
      simpa [weather_blocks, weatherBlocksAux, hp] using h2

theorem weather_blocks_rain_same_forecast_witness :
    (∀ b ∈ weather_blocks [pShowers, pThunder] is_warm true, ∀ p ∈ b, ∀ q ∈ b,
      p.shortForecast = q.shortForecast) ∧
    weather_blocks [pShowers, pThunder] is_warm false = [[pShowers, pThunder]] ∧
    weather_blocks [pShowers, pThunder] is_warm true = [[pShowers], [pThunder]] :=
  ⟨(weather_blocks_rain_same_forecast is_warm [pShowers, pThunder]).1,
   (weather_blocks_rain_same_forecast is_warm [pShowers, pThunder]).2
     (by decide) (by decide),
   by decide⟩

def pNullPop : Period :=
  ⟨"2022-01-01T08:00:00", "2022-01-01T09:00:00", true, 60, none, "Rain", "5 mph"⟩

/-- C3 counterexample: on a period whose
`probabilityOfPrecipitation` value is `null`, `is_rainy` does not
return `False` and `forecast_desirability` does not compute
`max(0, 33)`; both raise `TypeError` (`None` is not comparable with an
`int`), contradicting the claim that the null is treated as 0 and
neither function fails. -/
theorem null_pop_counterexample :
    is_rainy pNullPop = Except.error PyError.typeError ∧
    forecast_desirability pNullPop = Except.error PyError.typeError :=
  ⟨rfl, rfl⟩

/-- C3 amended: for every period whose `probabilityOfPrecipitation`
value is `null`, the null is NOT treated as 0 — both `is_rainy` and
`forecast_desirability` fail with a `TypeError`, because the code
compares `None > 33` and computes `max(None, 33)` without any
null-coercion. -/
theorem null_pop_raises (period : Period)
    (h : period.probabilityOfPrecipitation = none) :
    is_rainy period = Except.error PyError.typeError ∧
    forecast_desirability period = Except.error PyError.typeError := by
  simp [is_rainy, forecast_desirability, h]

theorem null_pop_raises_witness :
    pNullPop.probabilityOfPrecipitation = none ∧
    (is_rainy pNullPop = Except.error PyError.typeError ∧
     forecast_desirability pNullPop = Except.error PyError.typeError) :=
  ⟨rfl, null_pop_raises pNullPop rfl⟩

/-- C8: the UID of the event built for a day's chosen period depends
only on the first 10 characters (the date portion) of the period's
`startTime`: two builds whose chosen best periods share the date but
differ in time of day (and even in the forecast-updated stamp) produce
events with the identical UID, for every digest function. -/
theorem best_event_uid_from_date (sha1hex : String → String)
    (fu1 fu2 : String) (p q : Period)
    (hdate : pyTake 10 p.startTime = pyTake 10 q.startTime) :
    (mkBestEvent sha1hex fu1 p).uid = (mkBestEvent sha1hex fu2 q).uid := by
  simp [mkBestEvent, create_uid, hdate]

def pMorning : Period :=
  ⟨"2022-01-01T08:00:00", "2022-01-01T09:00:00", true, 70, some 10, "Sunny", "5 mph"⟩

def pAfternoon : Period :=
  ⟨"2022-01-01T15:00:00", "2022-01-01T16:00:00", true, 71, some 20, "Cloudy", "7 mph"⟩

theorem best_event_uid_from_date_witness :
    pyTake 10 pMorning.startTime = pyTake 10 pAfternoon.startTime ∧
    (mkBestEvent (fun s => s ++ s ++ s ++ s) "updA" pMorning).uid =
      (mkBestEvent (fun s => s ++ s ++ s ++ s) "updB" pAfternoon).uid :=
  ⟨by decide,
   best_event_uid_from_date (fun s => s ++ s ++ s ++ s) "updA" "updB"
     pMorning pAfternoon (by decide)⟩

lemma lookup_set_self (cache : List (String × String)) (url content : String) :
    lookupSoloize (set_soloize_cache cache url content) url = some content := by
  induction cache with
  | nil => simp [set_soloize_cache, lookupSoloize]
  | cons e rest ih =>
    obtain ⟨u, c⟩ := e
    by_cases h : u = url <;> simp [set_soloize_cache, lookupSoloize, h, ih]

lemma lookup_set_ne (cache : List (String × String)) (url content v : String)
    (hne : url ≠ v) :
    lookupSoloize (set_soloize_cache cache url content) v = lookupSoloize cache v := by
  induction cache with
  | nil => simp [set_soloize_cache, lookupSoloize, hne]
  | cons e rest ih =>
    obtain ⟨u, c⟩ := e
    by_cases h : u = url
    · subst h
      simp [set_soloize_cache, lookupSoloize, hne]
    · simp [set_soloize_cache, lookupSoloize, h, ih]

lemma lookup_refresh_step_cache_ne (process : String → Except PyExc String)
    (cache : List (String × String)) (url v : String) (hne : url ≠ v) :
    lookupSoloize (refresh_step_cache process cache url) v = lookupSoloize cache v := by
  unfold refresh_step_cache
  cases process url with
  | ok r => exact lookup_set_ne cache url r v hne
  | error e => rfl

lemma lookup_refresh_cycle_cache_not_mem (process : String → Except PyExc String)
    (urls : List String) :
    ∀ cache v, v ∉ urls →
      lookupSoloize (refresh_cycle_cache process cache urls) v = lookupSoloize cache v := by
  induction urls with
  | nil => intro cache v _; rfl
  | cons u rest ih =>
    intro cache v hv
    have hvu : u ≠ v := fun h => hv (by simp [h])
    have hvr : v ∉ rest := fun h => hv (by simp [h])
    rw [refresh_cycle_cache, ih (refresh_step_cache process cache u) v hvr]
    exact lookup_refresh_step_cache_ne process cache u v hvu

lemma refresh_cycle_soloize_eq_cache (process : String → Except PyExc String)
    (urls : List String) :
    ∀ cache, (∀ u ∈ urls, soloize_outcome_caught process u = true) →
      refresh_cycle_soloize process cache urls =
        (refresh_cycle_cache process cache urls, none) := by
  induction urls with
  | nil => intro cache _; rfl
  | cons u rest ih =>
    intro cache h
    have hu : soloize_outcome_caught process u = true := h u (by simp)
    have hrest : ∀ v ∈ rest, soloize_outcome_caught process v = true :=
      fun v hv => h v (by simp [hv])
    cases hpu : process u with
    | ok r =>
      simp only [refresh_cycle_soloize, refresh_cycle_cache, refresh_step_cache]
      rw [hpu]
      exact ih (set_soloize_cache cache u r) hrest
    | error e =>
      have hc : caught_by_soloize e = true := by
        unfold soloize_outcome_caught at hu
        rw [hpu] at hu
        exact hu
      simp only [refresh_cycle_soloize, refresh_cycle_cache, refresh_step_cache]
      rw [hpu]
      simp only [hc, if_true]
      exact ih cache hrest

def processParseFail : String → Except PyExc String := fun u =>
  if u = "https://calendar.example/bad.ics" then Except.error PyExc.otherException
  else Except.ok "BEGIN:VCALENDAR"

/-- C6 counterexample: in soloize.py's refresh loop (the claim's first
cited source), a parse failure is not caught — `processParseFail`
models a cycle whose first URL's feed fails to parse (a plain
`Exception`, per soloize.py lines 62-75, outside the caught tuple
`(RequestException, ValueError, KeyError)`) and whose second URL would
succeed: the cycle terminates with the exception escaping, and the
second URL is never processed (its cache entry stays absent), refuting
both "the remaining URLs of that cycle are still processed" and "the
refresh loop itself never terminates on any error". -/
theorem refresh_soloize_parse_error_terminates :
    refresh_cycle_soloize processParseFail []
      ["https://calendar.example/bad.ics", "https://calendar.example/ok.ics"] =
      ([], some PyExc.otherException) ∧
    lookupSoloize
      (refresh_cycle_soloize processParseFail []
        ["https://calendar.example/bad.ics", "https://calendar.example/ok.ics"]).1
      "https://calendar.example/ok.ics" = none :=
  ⟨rfl, rfl⟩

/-- C6 amended: the two duplicate refresh loops differ in their
`except` clause.  cache.py's loop (`except Exception`) catches every
failure on one URL, so each URL's final cache entry is determined
solely by its own pipeline result and the cycle always completes.
soloize.py's loop catches only `(RequestException, ValueError,
KeyError)` — network and validation errors — and behaves identically
to cache.py's loop exactly when every failure raised in the cycle is of
a caught class; a parse failure raising any other `Exception` subclass
escapes it (see the counterexample). -/
theorem refresh_cycle_error_handling (process : String → Except PyExc String)
    (cache : List (String × String)) (urls : List String) (url : String)
    (hmem : url ∈ urls) :
    lookupSoloize (refresh_cycle_cache process cache urls) url =
      (match process url with
       | Except.ok result => some result
       | Except.error _ => lookupSoloize cache url) ∧
    ((∀ u ∈ urls, soloize_outcome_caught process u = true) →
      refresh_cycle_soloize process cache urls =
        (refresh_cycle_cache process cache urls, none)) := by
  refine ⟨?_, refresh_cycle_soloize_eq_cache process urls cache⟩
  induction urls generalizing cache with
  | nil => simp at hmem
  | cons u rest ih =>
    by_cases hr : url ∈ rest
    · rw [refresh_cycle_cache]
      rw [ih (refresh_step_cache process cache u) hr]
      cases hpu : process url with
      | ok r => simp
      | error e =>
        simp only
        by_cases huu : u = url
        · subst huu
          unfold refresh_step_cache
          rw [hpu]
        · exact lookup_refresh_step_cache_ne process cache u url huu
    · have huu : u = url := by
        rcases List.mem_cons.mp hmem with h | h
        · exact h.symm
        · exact absurd h hr
      subst huu
      rw [refresh_cycle_cache, lookup_refresh_cycle_cache_not_mem process rest _ u hr]
      unfold refresh_step_cache
      cases hpu : process u with
      | ok r => simp [lookup_set_self]
      | error e => simp

def processNetFail : String → Except PyExc String := fun u =>
  if u = "https://calendar.example/down.ics" then Except.error PyExc.requestException
  else Except.ok "BEGIN:VCALENDAR"

theorem refresh_cycle_error_handling_witness :
    ("https://calendar.example/ok.ics" ∈
      ["https://calendar.example/down.ics", "https://calendar.example/ok.ics"]) ∧
    (∀ u ∈ ["https://calendar.example/down.ics", "https://calendar.example/ok.ics"],
      soloize_outcome_caught processNetFail u = true) ∧
    lookupSoloize
      (refresh_cycle_cache processNetFail []
        ["https://calendar.example/down.ics", "https://calendar.example/ok.ics"])
      "https://calendar.example/ok.ics" = some "BEGIN:VCALENDAR" ∧
    refresh_cycle_soloize processNetFail []
      ["https://calendar.example/down.ics", "https://calendar.example/ok.ics"] =
      (refresh_cycle_cache processNetFail []
        ["https://calendar.example/down.ics", "https://calendar.example/ok.ics"],
       none) := by
  refine ⟨by decide, by decide, ?_, ?_⟩
  · exact (refresh_cycle_error_handling processNetFail []
      ["https://calendar.example/down.ics", "https://calendar.example/ok.ics"]
      "https://calendar.example/ok.ics" (by decide)).1
  · exact (refresh_cycle_error_handling processNetFail []
      ["https://calendar.example/down.ics", "https://calendar.example/ok.ics"]
      "https://calendar.example/ok.ics" (by decide)).2 (by decide)

lemma cacheFind_replace_self (st : CacheState) (url : String) (r : Response)
    (e : Nat) (h : (cacheFind st url).isSome) :
    cacheFind (cacheReplace st url r e) url = some (r, e) := by
  induction st with
  | nil => simp [cacheFind] at h
  | cons entry rest ih =>
    obtain ⟨u, r0, e0⟩ := entry
    by_cases hu : u = url
    · simp [cacheReplace, cacheFind, hu]
    · simp [cacheReplace, cacheFind, hu] at h ⊢
      exact ih h

lemma cacheFind_append_of_none (st : CacheState) (rest : CacheState) (url : String)
    (h : cacheFind st url = none) :
    cacheFind (st ++ rest) url = cacheFind rest url := by
  induction st with
  | nil => rfl
  | cons entry tl ih =>
    obtain ⟨u, r0, e0⟩ := entry
    by_cases hu : u = url
    · simp [cacheFind, hu] at h
    · simp [cacheFind, hu] at h ⊢
      exact ih h

lemma cacheFind_drop_of_none (st : CacheState) (n : Nat) (url : String)
    (h : cacheFind st url = none) :
    cacheFind (st.drop n) url = none := by
  induction st generalizing n with
  | nil => simp [cacheFind]
  | cons entry tl ih =>
    obtain ⟨u, r0, e0⟩ := entry
    by_cases hu : u = url
    · simp [cacheFind, hu] at h
    · simp [cacheFind, hu] at h
      cases n with
      | zero => simp [cacheFind, hu, h]
      | succ m => exact ih m h

lemma cacheFind_evict_of_none (st : CacheState) (url : String)
    (h : cacheFind st url = none) :
    cacheFind (cacheEvict st) url = none := by
  unfold cacheEvict
  by_cases hlen : FORECAST_MAXSIZE ≤ List.length st
  · simp only [hlen, if_true]
    exact cacheFind_drop_of_none st _ url h
  · simpa [hlen]

lemma cacheFind_insert_self (st : CacheState) (now : Nat) (url : String)
    (r : Response) :
    cacheFind (cacheInsert st now url r) url = some (r, now + FORECAST_TTL) := by
  unfold cacheInsert
  cases hfind : cacheFind (cacheExpire now st) url with
  | some pr =>
    exact cacheFind_replace_self _ url r _ (by simp [hfind])
  | none =>
    have h1 : cacheFind
        (cacheEvict (cacheExpire now st) ++ [(url, r, now + FORECAST_TTL)]) url =
        some (r, now + FORECAST_TTL) := by
      rw [cacheFind_append_of_none _ _ url (cacheFind_evict_of_none _ url hfind)]
      simp [cacheFind]
    exact h1

/-- C7: after a successful `fetch_url` that performed a network
request at time `t0`, any `fetch_url` for the same URL strictly before
`t0 + 3600` (the forecast pool's TTL) returns the cached response with
no network request and an unchanged cache, while the first `fetch_url`
at or after `t0 + 3600` performs a network request again. -/
theorem fetch_url_ttl (net : String → Nat → Response) (st : CacheState)
    (t0 : Nat) (url : String) (r : Response) (st1 : CacheState)
    (hfetch : fetch_url net st t0 url =
      { result := Except.ok r, network := true, state := st1 }) :
    (∀ t1, t1 < t0 + FORECAST_TTL →
      fetch_url net st1 t1 url =
        { result := Except.ok r, network := false, state := st1 }) ∧
    (∀ t2, t0 + FORECAST_TTL ≤ t2 → (fetch_url net st1 t2 url).network = true) := by
  have hstate : st1 = cacheInsert st t0 url r := by
    unfold fetch_url at hfetch
    cases hlk : cacheLookup st t0 url with
    | some r' => rw [hlk] at hfetch; simp at hfetch
    | none =>
      rw [hlk] at hfetch
      simp only at hfetch
      by_cases hs : (net url t0).status = 200
      · simp [hs] at hfetch
        obtain ⟨hr, hst⟩ := hfetch
        rw [← hst, hr]
      · simp [hs] at hfetch
  have hfind : cacheFind st1 url = some (r, t0 + FORECAST_TTL) := by
    rw [hstate]; exact cacheFind_insert_self st t0 url r
  constructor
  · intro t1 ht1
    unfold fetch_url cacheLookup
    rw [hfind]
    simp [ht1]
  · intro t2 ht2
    unfold fetch_url cacheLookup
    rw [hfind]
    have : ¬ t2 < t0 + FORECAST_TTL := by omega
    simp only [this, if_false]
    by_cases hs : (net url t2).status = 200 <;> simp [hs]

def netDemo : String → Nat → Response := fun _ _ => ⟨200, "forecast-json"⟩

def stDemo : CacheState := [("https://api.weather.gov/f", ⟨200, "forecast-json"⟩, 3600)]

theorem fetch_url_ttl_witness :
    (fetch_url netDemo [] 0 "https://api.weather.gov/f" =
      { result := Except.ok ⟨200, "forecast-json"⟩, network := true
        state := stDemo }) ∧
    fetch_url netDemo stDemo 1800 "https://api.weather.gov/f" =
      { result := Except.ok ⟨200, "forecast-json"⟩, network := false
        state := stDemo } ∧
    (fetch_url netDemo stDemo 3600 "https://api.weather.gov/f").network = true :=
  ⟨rfl,
   (fetch_url_ttl netDemo [] 0 "https://api.weather.gov/f"
      ⟨200, "forecast-json"⟩ stDemo rfl).1 1800 (by decide),
   (fetch_url_ttl netDemo [] 0 "https://api.weather.gov/f"
      ⟨200, "forecast-json"⟩ stDemo rfl).2 3600 (by decide)⟩

lemma keyLt_iff (a b : Key) :
    keyLt a b = true ↔
      (a.1 < b.1 ∨ (a.1 = b.1 ∧
        (a.2.1 < b.2.1 ∨ (a.2.1 = b.2.1 ∧ a.2.2 < b.2.2)))) := by
  simp [keyLt]

lemma keyLt_irrefl (a : Key) : keyLt a a = false := by
  rw [Bool.eq_false_iff]
  intro h
  rw [keyLt_iff] at h
  omega

lemma keyLt_asymm (a b : Key) (h : keyLt a b = true) : keyLt b a = false := by
  rw [keyLt_iff] at h
  rw [Bool.eq_false_iff]
  intro h2
  rw [keyLt_iff] at h2
  omega

lemma keyLt_false_trans (a b c : Key) (h1 : keyLt a b = false)
    (h2 : keyLt b c = false) : keyLt a c = false := by
  rw [Bool.eq_false_iff] at h1 h2 ⊢
  intro h
  rw [keyLt_iff] at h
  apply h2
  rw [keyLt_iff]
  by_contra h3
  apply h1
  rw [keyLt_iff]
  omega

lemma mem_insertPair (x z : Period × Key) (l : List (Period × Key)) :
    z ∈ insertPair x l ↔ z = x ∨ z ∈ l := by
  induction l with
  | nil => simp [insertPair]
  | cons y ys ih =>
    by_cases h : keyLt y.2 x.2
    · simp [insertPair, h, ih]
      tauto
    · simp [insertPair, h, ih]

lemma mem_sortPairs (z : Period × Key) (l : List (Period × Key)) :
    z ∈ sortPairs l ↔ z ∈ l := by
  induction l with
  | nil => simp [sortPairs]
  | cons y ys ih => simp [sortPairs, mem_insertPair, ih]

lemma pairwise_insertPair (x : Period × Key) (l : List (Period × Key))
    (h : l.Pairwise (fun a b => keyLt b.2 a.2 = false)) :
    (insertPair x l).Pairwise (fun a b => keyLt b.2 a.2 = false) := by
  induction l with
  | nil => simp [insertPair]
  | cons y ys ih =>
    rw [List.pairwise_cons] at h
    obtain ⟨hy, hys⟩ := h
    by_cases hlt : keyLt y.2 x.2
    · rw [insertPair, if_pos hlt, List.pairwise_cons]
      refine ⟨?_, ih hys⟩
      intro z hz
      rcases (mem_insertPair x z ys).mp hz with rfl | hz'
      · exact keyLt_asymm y.2 z.2 hlt
      · exact hy z hz'
    · rw [insertPair, if_neg hlt, List.pairwise_cons]
      refine ⟨?_, List.pairwise_cons.mpr ⟨hy, hys⟩⟩
      intro z hz
      rcases List.mem_cons.mp hz with rfl | hz'
      · exact Bool.eq_false_iff.mpr hlt
      · exact keyLt_false_trans z.2 y.2 x.2 (hy z hz') (Bool.eq_false_iff.mpr hlt)

lemma sortPairs_pairwise (l : List (Period × Key)) :
    (sortPairs l).Pairwise (fun a b => keyLt b.2 a.2 = false) := by
  induction l with
  | nil => simp [sortPairs]
  | cons y ys ih => exact pairwise_insertPair y (sortPairs ys) ih

lemma sortPairs_head_min (l : List (Period × Key)) (h : Period × Key)
    (t : List (Period × Key)) (hsort : sortPairs l = h :: t) :
    ∀ z ∈ l, keyLt z.2 h.2 = false := by
  intro z hz
  have hzs : z ∈ sortPairs l := (mem_sortPairs z l).mpr hz
  rw [hsort] at hzs
  rcases List.mem_cons.mp hzs with rfl | hz'
  · exact keyLt_irrefl z.2
  · have hp := sortPairs_pairwise l
    rw [hsort, List.pairwise_cons] at hp
    exact hp.1 z hz'

lemma mapE_ok_mem {α β : Type} (g : α → Except PyError β) (l : List α)
    (r : List β) (h : mapE g l = Except.ok r) :
    ∀ x ∈ r, ∃ a ∈ l, g a = Except.ok x := by
  induction l generalizing r with
  | nil =>
    simp [mapE] at h
    subst h
    simp
  | cons a as ih =>
    rw [mapE] at h
    cases hga : g a with
    | error e => rw [hga] at h; simp at h
    | ok b =>
      rw [hga] at h
      cases hms : mapE g as with
      | error e => rw [hms] at h; simp at h
      | ok bs =>
        rw [hms] at h
        simp at h
        subst h
        intro x hx
        rcases List.mem_cons.mp hx with rfl | hx'
        · exact ⟨a, by simp, hga⟩
        · obtain ⟨a', ha', hga'⟩ := ih bs hms x hx'
          exact ⟨a', by simp [ha'], hga'⟩

lemma mapE_ok_forall {α β : Type} (g : α → Except PyError β) (l : List α)
    (r : List β) (h : mapE g l = Except.ok r) :
    ∀ a ∈ l, ∃ x ∈ r, g a = Except.ok x := by
  induction l generalizing r with
  | nil => simp
  | cons a as ih =>
    rw [mapE] at h
    cases hga : g a with
    | error e => rw [hga] at h; simp at h
    | ok b =>
      rw [hga] at h
      cases hms : mapE g as with
      | error e => rw [hms] at h; simp at h
      | ok bs =>
        rw [hms] at h
        simp at h
        subst h
        intro a' ha'
        rcases List.mem_cons.mp ha' with rfl | ha''
        · exact ⟨b, by simp, hga⟩
        · obtain ⟨x, hx, hgx⟩ := ih bs hms a' ha''
          exact ⟨x, by simp [hx], hgx⟩

lemma keyedPeriod_ok (p : Period) (x : Period × Key)
    (h : keyedPeriod p = Except.ok x) :
    x.1 = p ∧ forecast_desirability p = Except.ok x.2 := by
  unfold keyedPeriod at h
  cases hfd : forecast_desirability p with
  | error e => rw [hfd] at h; simp at h
  | ok k =>
    rw [hfd] at h
    simp at h
    subst h
    exact ⟨rfl, rfl⟩

/-- C5: whenever `sorted(day, key=forecast_desirability)[0]` selects
a period, that period belongs to the day window and its desirability
key is lexicographically minimal — no period of the window has a
strictly smaller key; and for every period with a non-null
precipitation value and parseable wind speed the key is exactly the
tuple `(max(pop, 33), abs(70 - temperature), leading int of
windSpeed)`. -/
theorem best_period_minimal (day : List Period) (b : Period)
    (hb : best_period day = Except.ok b) :
    b ∈ day ∧
    (∃ kb, forecast_desirability b = Except.ok kb ∧
      ∀ p ∈ day, ∃ kp, forecast_desirability p = Except.ok kp ∧
        keyLt kp kb = false) ∧
    (∀ p : Period, ∀ v w : Int, p.probabilityOfPrecipitation = some v →
      pyInt (takeUntilChar ' ' p.windSpeed.data) = some w →
      forecast_desirability p =
        Except.ok (max v MIN_CHANCE_RAIN, |70 - p.temperature|, w)) := by
  unfold best_period at hb
  cases hps : pySorted day with
  | error e => rw [hps] at hb; simp at hb
  | ok l =>
    rw [hps] at hb
    cases l with
    | nil => simp at hb
    | cons x t =>
      simp at hb
      subst hb
      unfold pySorted at hps
      cases hmap : mapE keyedPeriod day with
      | error e => rw [hmap] at hps; simp at hps
      | ok pairs =>
        rw [hmap] at hps
        simp at hps
        cases hsp : sortPairs pairs with
        | nil => rw [hsp] at hps; simp at hps
        | cons h0 t0 =>
          rw [hsp] at hps
          simp at hps
          obtain ⟨hfst0, _⟩ := hps
          have hh0p : h0 ∈ pairs := (mem_sortPairs h0 pairs).mp (by rw [hsp]; simp)
          obtain ⟨a, ha, hka⟩ := mapE_ok_mem keyedPeriod day pairs hmap h0 hh0p
          obtain ⟨hfst, hfd⟩ := keyedPeriod_ok a h0 hka
          have hax : a = x := by rw [← hfst, hfst0]
          subst hax
          refine ⟨ha, ⟨h0.2, hfd, ?_⟩, ?_⟩
          · intro p hp
            obtain ⟨z, hz, hkz⟩ := mapE_ok_forall keyedPeriod day pairs hmap p hp
            obtain ⟨hzf, hzd⟩ := keyedPeriod_ok p z hkz
            refine ⟨z.2, hzd, ?_⟩
            exact sortPairs_head_min pairs h0 t0 hsp z hz
          · intro p v w hv hw
            simp [forecast_desirability, hv, hw]

def pTemp72 : Period :=
  ⟨"2022-01-01T08:00:00", "2022-01-01T09:00:00", true, 72, some 40, "Sunny", "5 mph"⟩

def pTemp70 : Period :=
  ⟨"2022-01-01T09:00:00", "2022-01-01T10:00:00", true, 70, some 20, "Sunny", "10 mph"⟩

theorem best_period_minimal_witness :
    best_period [pTemp72, pTemp70] = Except.ok pTemp70 ∧
    forecast_desirability pTemp72 = Except.ok (40, 2, 5) ∧
    forecast_desirability pTemp70 = Except.ok (33, 0, 10) ∧
    pTemp70 ∈ [pTemp72, pTemp70] ∧
    (∃ kb, forecast_desirability pTemp70 = Except.ok kb ∧
      ∀ p ∈ [pTemp72, pTemp70], ∃ kp, forecast_desirability p = Except.ok kp ∧
        keyLt kp kb = false) :=
  ⟨rfl, rfl, rfl,
   (best_period_minimal [pTemp72, pTemp70] pTemp70 rfl).1,
   (best_period_minimal [pTemp72, pTemp70] pTemp70 rfl).2.1⟩

/-- C9: when `properties.periods` contains no daytime period,
`build_best_weather_calendar` does not return an empty calendar: `days`
emits its trailing empty group, sorting it leaves the empty list, and
indexing `[0]` raises `IndexError`, so the whole build fails. -/
theorem build_fails_without_daytime (sha1hex : String → String)
    (forecast_updated : String) (periods : List Period)
    (h : ∀ p ∈ periods, p.isDaytime = false) :
    build_best_weather_calendar sha1hex forecast_updated periods =
      Except.error PyError.indexError := by
  unfold build_best_weather_calendar
  have hd : days periods = [[]] := by
    simpa [days] using daysAux_no_daytime periods h [] none
  rw [hd]
  rfl

def pNightOnly : Period :=
  ⟨"2022-01-01T20:00:00", "2022-01-01T21:00:00", false, 60, some 0, "Clear", "5 mph"⟩

theorem build_fails_without_daytime_witness :
    (∀ p ∈ [pNightOnly], p.isDaytime = false) ∧
    build_best_weather_calendar (fun s => s) "upd" [pNightOnly] =
      Except.error PyError.indexError :=
  ⟨by decide, build_fails_without_daytime (fun s => s) "upd" [pNightOnly] (by decide)⟩
